import Mathlib

/-!
Verification of the `ubuntu-package-buildlog-info` tool
(`src/ubuntu_package_buildlog_info/cli.py`) against its specification.

The development shallowly embeds the pure content of `get_buildlog_info`:
the pocket/status publication resolver, the build selector, the
build-log manifest (buildinfo) extractor, the `<<PKGBUILDDIR>>`
placeholder extraction and substitution, and the SHA-256 checksum
verifier.  The Launchpad archive and the HTTP document fetcher are
modelled as explicit collaborator functions, the four output files as a
list of (name, content) pairs, and `print` calls as a list of emitted
strings.  Python string primitives used by the code (`str.splitlines`,
`str.split`, `str.strip`, `str.replace`, the `in` substring test and
the one regex search) are embedded as executable Lean functions with
Python's semantics, and `hashlib.sha256` as a full SHA-256 (FIPS 180-4)
implementation over the UTF-8 bytes of the hashed string.
-/

/-- Whitespace test matching Python's `str.isspace` on the characters that
`str.strip`/`str.split` treat as separators (ASCII whitespace, the C1
separator block, NEL, NBSP and the Unicode space/line separators). -/
def isPyWhite (c : Char) : Bool :=
  c.toNat == 32 || (9 ≤ c.toNat && c.toNat ≤ 13) || (28 ≤ c.toNat && c.toNat ≤ 31) ||
  c.toNat == 133 || c.toNat == 160 || c.toNat == 5760 ||
  (8192 ≤ c.toNat && c.toNat ≤ 8202) || c.toNat == 8232 || c.toNat == 8233 ||
  c.toNat == 8239 || c.toNat == 8287 || c.toNat == 12288

/-- Python `str.strip()` on a character list: drop leading and trailing
whitespace. -/
def pyStripList (l : List Char) : List Char :=
  ((l.dropWhile isPyWhite).reverse.dropWhile isPyWhite).reverse

/-- Python `str.split()` (no separator argument): split on whitespace runs,
returning the maximal non-whitespace words, with no empty entries. -/
def pySplitList : List Char → List Char → List String
  | [], acc => if acc.isEmpty then [] else [String.mk acc.reverse]
  | c :: cs, acc =>
    if isPyWhite c then
      if acc.isEmpty then pySplitList cs [] else String.mk acc.reverse :: pySplitList cs []
    else pySplitList cs (c :: acc)

/-- Python `str.split()` on a string. -/
def pySplit (s : String) : List String :=
  pySplitList s.toList []

/-- Line-break test for Python `str.splitlines` (LF, VT, FF, CR, FS, GS, RS,
NEL, LINE SEPARATOR, PARAGRAPH SEPARATOR; CRLF is handled separately). -/
def isLineBreak (c : Char) : Bool :=
  c.toNat == 10 || c.toNat == 11 || c.toNat == 12 || c.toNat == 13 ||
  c.toNat == 28 || c.toNat == 29 || c.toNat == 30 ||
  c.toNat == 133 || c.toNat == 8232 || c.toNat == 8233

/-- Worker for `splitLines`: `acc` is the current line, reversed. -/
def splitLinesAux : List Char → List Char → List String
  | [], acc => if acc.isEmpty then [] else [String.mk acc.reverse]
  | [c], acc =>
    if isLineBreak c then [String.mk acc.reverse]
    else [String.mk (c :: acc).reverse]
  | c :: c2 :: cs, acc =>
    if c.toNat == 13 && c2.toNat == 10 then String.mk acc.reverse :: splitLinesAux cs []
    else if isLineBreak c then String.mk acc.reverse :: splitLinesAux (c2 :: cs) []
    else splitLinesAux (c2 :: cs) (c :: acc)

/-- Python `str.splitlines()`: split at line boundaries, boundaries not kept,
no trailing empty line for a trailing terminator. -/
def splitLines (s : String) : List String :=
  splitLinesAux s.toList []

/-- Does the pattern `p` occur in `s` starting exactly at index `i`? -/
def strAt (p s : List Char) (i : Nat) : Bool :=
  p.isPrefixOf (s.drop i)

/-- First index `≥ start` at which `p` occurs in `s`, searching `fuel`
candidate positions. -/
def firstIdxAux (p s : List Char) : Nat → Nat → Option Nat
  | _, 0 => none
  | start, fuel + 1 => if strAt p s start then some start else firstIdxAux p s (start + 1) fuel

/-- Index of the first occurrence of `p` in `s` (Python `str.find` / the
leftmost-match rule of `re.search`). -/
def firstIdxOf (p s : List Char) : Option Nat :=
  firstIdxAux p s 0 (s.length + 1)

/-- Largest index `k ≤ n` with `lo ≤ k` at which `q` occurs in `s`
(the greedy extent of a trailing regex literal). -/
def lastIdxFrom (q s : List Char) (lo : Nat) : Nat → Option Nat
  | 0 => if lo == 0 && strAt q s 0 then some 0 else none
  | n + 1 => if lo ≤ n + 1 && strAt q s (n + 1) then some (n + 1) else lastIdxFrom q s lo n

/-- Python's substring containment test `p in s` on character lists. -/
def containsSub (p s : List Char) : Bool :=
  (firstIdxOf p s).isSome

/-- Python's substring containment test `pat in line` on strings. -/
def containsStr (pat line : String) : Bool :=
  containsSub pat.toList line.toList

/-- Concatenate lines, each followed by a newline, as the manifest
accumulation loop of `get_buildlog_info` does. -/
def linesConcat : List String → String
  | [] => ""
  | l :: ls => l ++ "\n" ++ linesConcat ls

/-- The start banner of the buildinfo region (`buildinfo_start`,
cli.py line 217). -/
def buildinfoStart : String :=
  "| Buildinfo                                                                    |"

/-- The end banner of the buildinfo region (`buildinfo_end`,
cli.py line 218). -/
def buildinfoEnd : String :=
  "| Package contents                                                             |"

/-- The boxed-table separator row (`buildlog_header_separator`,
cli.py lines 219-221). -/
def headerSeparator : String :=
  "+------------------------------------------------------------------------------+"

/-- The filter of cli.py lines 231-237: a scanned line is appended to the
manifest unless it equals one of the banners, the separator, or is empty. -/
def keepManifestLine (l : String) : Bool :=
  !(l == buildinfoStart) && !(l == buildinfoEnd) && !(l == headerSeparator) && !(l == "")

/-- The manifest-region scan of cli.py lines 222-238, transliterated: walk the
build-log lines with an `append_to_buildinfo` flag; a line containing
`buildinfo_start` sets the flag; a line containing `buildinfo_end` stops the
whole scan; while the flag is set, lines passing `keepManifestLine` are
appended, each followed by a newline. -/
def buildinfoLoop (flag : Bool) : List String → String
  | [] => ""
  | l :: ls =>
    let flag2 := if containsStr buildinfoStart l then true else flag
    if containsStr buildinfoEnd l then ""
    else if flag2 && keepManifestLine l then l ++ "\n" ++ buildinfoLoop flag2 ls
    else buildinfoLoop flag2 ls

/-- The manifest extracted from a raw build-log text (cli.py lines 222-238,
applied to `buildlog_resp.splitlines()`). -/
def extractBuildinfo (buildlog : String) : String :=
  buildinfoLoop false (splitLines buildlog)

/-- Declarative description of the region the scan actually accumulates:
cut the line list at the first line containing the end banner, then keep the
suffix starting at the first line containing the start banner. -/
def manifestRegion (ls : List String) : List String :=
  (ls.takeWhile (fun l => !containsStr buildinfoEnd l)).dropWhile
    (fun l => !containsStr buildinfoStart l)

/-- Declarative manifest: the filtered region lines, each with a newline. -/
def manifestOfLines (ls : List String) : String :=
  linesConcat (ls.filter keepManifestLine)

theorem buildinfoLoop_true (ls : List String) :
    buildinfoLoop true ls =
      manifestOfLines (ls.takeWhile (fun l => !containsStr buildinfoEnd l)) := by
  induction ls with
  | nil => rfl
  | cons l ls ih =>
    by_cases hE : containsStr buildinfoEnd l
    · simp [buildinfoLoop, hE, manifestOfLines, linesConcat]
    · by_cases hK : keepManifestLine l
      · simp [buildinfoLoop, hE, hK, manifestOfLines, List.filter, linesConcat, ih]
      · simp [buildinfoLoop, hE, hK, manifestOfLines, List.filter, linesConcat, ih]

theorem buildinfoLoop_false (ls : List String) :
    buildinfoLoop false ls = manifestOfLines (manifestRegion ls) := by
  induction ls with
  | nil => rfl
  | cons l ls ih =>
    by_cases hE : containsStr buildinfoEnd l
    · simp [buildinfoLoop, hE, manifestRegion, manifestOfLines, linesConcat]
    · by_cases hS : containsStr buildinfoStart l
      · by_cases hK : keepManifestLine l
        · simp [buildinfoLoop, hE, hS, hK, manifestRegion, manifestOfLines, List.filter,
            linesConcat, buildinfoLoop_true]
        · simp [buildinfoLoop, hE, hS, hK, manifestRegion, manifestOfLines, List.filter,
            linesConcat, buildinfoLoop_true]
      · simp [buildinfoLoop, hE, hS, manifestRegion, manifestOfLines, ih]

/-- A single-quote character, as a string. -/
def sqStr : String :=
  String.singleton (Char.ofNat 39)

/-- First marker substring of the placeholder notice line
(cli.py line 189). -/
def noticeMarker : String :=
  "I: NOTICE: Log filtering will replace"

/-- Second marker substring of the placeholder notice line
(cli.py line 190). -/
def pkgdirMarker : String :=
  "with " ++ sqStr ++ "<<PKGBUILDDIR>>" ++ sqStr

/-- The placeholder token substituted in the manifest (cli.py line 241). -/
def pkgToken : String :=
  "<<PKGBUILDDIR>>"

/-- Test of cli.py lines 188-191: both marker substrings occur in the line. -/
def markerLine (l : String) : Bool :=
  containsStr noticeMarker l && containsStr pkgdirMarker l

/-- The leading literal of the regex `r"'build/.*' "`: a quote followed by
`build/` (7 characters). -/
def sqBuildPat : List Char :=
  (sqStr ++ "build/").toList

/-- The trailing literal of the regex `r"'build/.*' "`: a quote followed by
a space. -/
def quoteSpacePat : List Char :=
  (sqStr ++ " ").toList

/-- Python `re.search(r"'build/.*' ", line)` (cli.py lines 193-194): the
match starts at the leftmost occurrence of `'build/`; the greedy `.*` (which
cannot cross a newline, and lines contain none) extends the match to the last
occurrence of `' ` at least 7 characters after the start; `group(0)` is that
span, trailing space included.  `none` is Python's no-match `None`. -/
def reSearchBuild (l : List Char) : Option (List Char) :=
  match firstIdxOf sqBuildPat l with
  | none => none
  | some i =>
    match lastIdxFrom quoteSpacePat l (i + 7) l.length with
    | none => none
    | some k => some ((l.drop i).take (k + 2 - i))

/-- Post-processing of the matched span (cli.py lines 194-196):
`.replace("'", "")` removes every single quote, then `.strip()` trims
surrounding whitespace. -/
def pkgPathClean (m : List Char) : String :=
  String.mk (pyStripList (m.filter (fun c => !(c.toNat == 39))))

/-- The placeholder-path scan of cli.py lines 186-199: walk the build-log
lines; at the first line containing both markers, run the regex search and
dereference its result — an error (Python `AttributeError` on
`None.group(0)`) when the regex does not match — then stop; if no marker
line exists the path stays `""`. -/
def pkgBuilddirLoop : List String → Except Unit String
  | [] => Except.ok ""
  | l :: ls =>
    if markerLine l then
      match reSearchBuild l.toList with
      | none => Except.error ()
      | some m => Except.ok (pkgPathClean m)
    else pkgBuilddirLoop ls

/-- The placeholder path extracted from a raw build-log text
(cli.py lines 186-199, applied to `buildlog_resp.splitlines()`). -/
def extractPkgBuilddir (buildlog : String) : Except Unit String :=
  pkgBuilddirLoop (splitLines buildlog)

/-- First index `≥ lo` at which `q` occurs in `s`. -/
def firstIdxFrom (q s : List Char) (lo : Nat) : Option Nat :=
  firstIdxAux q s lo (s.length + 1 - lo)

/-- Claim C2's reading of the regex extraction, following the claim's words:
the single-quoted path runs from the first occurrence of `'build/` "up to the
next single-quote-plus-space boundary" — i.e. the FIRST such boundary — with
quotes removed and whitespace stripped.  Used only to compare the claim
against the code's greedy (last-boundary) behaviour. -/
def claimNextBoundaryPath (l : List Char) : Option String :=
  match firstIdxOf sqBuildPat l with
  | none => none
  | some i =>
    match firstIdxFrom quoteSpacePat l (i + 7) with
    | none => none
    | some k => some (pkgPathClean ((l.drop i).take (k + 2 - i)))

/-- Claim C1's reading of the manifest-region scan, following the claim's
words: accumulation begins at the first line exactly equal to the start
banner and stops at the first subsequent line exactly equal to the end
banner.  Used only to compare the claim against the code's
substring-containment behaviour. -/
def claimManifestExact (ls : List String) : String :=
  manifestOfLines
    ((ls.dropWhile (fun l => !(l == buildinfoStart))).takeWhile
      (fun l => !(l == buildinfoEnd)))

/-- Python `str.replace(pat, rep)` on character lists: replace every
non-overlapping occurrence, scanning left to right (for non-empty `pat`). -/
def replaceAllList (pat rep : List Char) : List Char → List Char
  | [] => []
  | c :: cs =>
    if !pat.isEmpty && pat.isPrefixOf (c :: cs) then
      rep ++ replaceAllList pat rep (cs.drop (pat.length - 1))
    else c :: replaceAllList pat rep cs
termination_by l => l.length
decreasing_by all_goals (simp [List.length_drop] <;> omega)

/-- Python `str.replace(pat, rep)` on strings. -/
def replaceAllStr (pat rep s : String) : String :=
  String.mk (replaceAllList pat.toList rep.toList s.toList)

/-- The placeholder substitution of cli.py line 241:
`buildinfo.replace("<<PKGBUILDDIR>>", pkg_builddir)`. -/
def substituteBuilddir (path manifest : String) : String :=
  replaceAllStr pkgToken path manifest

/-- Outcome of the checksum verification scan (cli.py lines 259-275).
`hashMatch`/`hashMismatch` are the two printed outcomes, `notPresent` is the
loop running out of lines without finding the filename in the checksum
section, and `splitCrash` is the `IndexError` Python would raise on
`changesfile_line.split()[0]` for an all-whitespace line. -/
inductive VerifyOutcome
  | hashMatch
  | hashMismatch
  | notPresent
  | splitCrash
deriving DecidableEq, Repr

/-- The literal marker of the checksum section (cli.py line 261). -/
def checksumsMarker : String :=
  "Checksums-Sha256:"

/-- The body of the verification branch (cli.py lines 263-272): the first
whitespace token of the found line is compared with the expected digest. -/
def tokenOutcome (digest l : String) : VerifyOutcome :=
  match pySplit l with
  | [] => VerifyOutcome.splitCrash
  | t :: _ => if t == digest then VerifyOutcome.hashMatch else VerifyOutcome.hashMismatch

/-- The checksum scan of cli.py lines 259-275, transliterated: a flag is set
once a line contains `Checksums-Sha256:`; at the first line with the flag set
that contains the manifest filename, the first whitespace token of the line
is compared with `digest` and the loop breaks, leaving the remaining lines
unscanned (returned untouched as the second component). -/
def verifyScan (fname digest : String) (flag : Bool) : List String → VerifyOutcome × List String
  | [] => (VerifyOutcome.notPresent, [])
  | l :: ls =>
    let flag2 := if containsStr checksumsMarker l then true else flag
    if flag2 && containsStr fname l then (tokenOutcome digest l, ls)
    else verifyScan fname digest flag2 ls

/-- Declarative window: the suffix of the changes-file lines starting at the
first line containing `Checksums-Sha256:`. -/
def checksumWindow (ls : List String) : List String :=
  ls.dropWhile (fun l => !containsStr checksumsMarker l)

/-- Declarative lookup: the first line at or after the checksum marker that
contains the manifest filename, together with the lines after it. -/
def findChecksumLine (fname : String) (ls : List String) : Option (String × List String) :=
  match (checksumWindow ls).dropWhile (fun l => !containsStr fname l) with
  | [] => none
  | l :: rest => some (l, rest)

/-- The message printed for a verification outcome (cli.py lines 269-272):
match and mismatch each print one line; `notPresent` prints nothing. -/
def verifyMessage (o : VerifyOutcome) (fname : String) : Option String :=
  match o with
  | VerifyOutcome.hashMatch => some ("INFO: \tHash of " ++ fname ++ " matches hash in changes file.")
  | VerifyOutcome.hashMismatch => some ("INFO: \tHash of " ++ fname ++ " does not match hash in changes file.")
  | VerifyOutcome.notPresent => none
  | VerifyOutcome.splitCrash => none

/-- 2^32, the word modulus of SHA-256. -/
def w32 : Nat :=
  4294967296

/-- Rotate a 32-bit word right by `n` bits. -/
def rotr32 (n x : Nat) : Nat :=
  (x / 2 ^ n + x % 2 ^ n * 2 ^ (32 - n)) % w32

/-- Shift a 32-bit word right by `n` bits. -/
def shr32 (n x : Nat) : Nat :=
  x / 2 ^ n

/-- Trial-division primality test, used to generate the SHA-256 constants. -/
def isPrimeNat (n : Nat) : Bool :=
  2 ≤ n && ((List.range n).all (fun d => d < 2 || !(n % d == 0)))

/-- The first `k` primes (2, 3, 5, ...). -/
def firstPrimes (k : Nat) : List Nat :=
  ((List.range 512).filter isPrimeNat).take k

/-- Integer cube root by bisection (`fuel` halvings of `[lo, hi)`). -/
def cbrtAux (n : Nat) : Nat → Nat → Nat → Nat
  | lo, _, 0 => lo
  | lo, hi, fuel + 1 =>
    if hi ≤ lo + 1 then lo
    else
      let m := (lo + hi) / 2
      if m * m * m ≤ n then cbrtAux n m hi fuel else cbrtAux n lo m fuel

/-- Integer cube root: the largest `r` with `r^3 ≤ n` (for `n < 2^150`). -/
def icbrt (n : Nat) : Nat :=
  cbrtAux n 0 (2 ^ 50) 200

/-- The 64 SHA-256 round constants: the first 32 bits of the fractional parts
of the cube roots of the first 64 primes. -/
def shaK : List Nat :=
  (firstPrimes 64).map (fun p => icbrt (p * 2 ^ 96) % w32)

/-- The 8 initial SHA-256 hash words: the first 32 bits of the fractional
parts of the square roots of the first 8 primes. -/
def shaH0 : List Nat :=
  (firstPrimes 8).map (fun p => Nat.sqrt (p * 2 ^ 64) % w32)

/-- SHA-256 `Ch(x, y, z)`. -/
def shaCh (x y z : Nat) : Nat :=
  Nat.xor (Nat.land x y) (Nat.land (Nat.xor x 4294967295) z)

/-- SHA-256 `Maj(x, y, z)`. -/
def shaMaj (x y z : Nat) : Nat :=
  Nat.xor (Nat.xor (Nat.land x y) (Nat.land x z)) (Nat.land y z)

/-- SHA-256 `Σ0`. -/
def bigSigma0 (x : Nat) : Nat :=
  Nat.xor (Nat.xor (rotr32 2 x) (rotr32 13 x)) (rotr32 22 x)

/-- SHA-256 `Σ1`. -/
def bigSigma1 (x : Nat) : Nat :=
  Nat.xor (Nat.xor (rotr32 6 x) (rotr32 11 x)) (rotr32 25 x)

/-- SHA-256 `σ0`. -/
def smallSigma0 (x : Nat) : Nat :=
  Nat.xor (Nat.xor (rotr32 7 x) (rotr32 18 x)) (shr32 3 x)

/-- SHA-256 `σ1`. -/
def smallSigma1 (x : Nat) : Nat :=
  Nat.xor (Nat.xor (rotr32 17 x) (rotr32 19 x)) (shr32 10 x)

/-- One SHA-256 compression round on the 8-word state. -/
def shaRound (st : List Nat) (k w : Nat) : List Nat :=
  match st with
  | [a, b, c, d, e, f, g, h] =>
    let t1 := (h + bigSigma1 e + shaCh e f g + k + w) % w32
    let t2 := (bigSigma0 a + shaMaj a b c) % w32
    [(t1 + t2) % w32, a, b, c, (d + t1) % w32, e, f, g]
  | other => other

/-- Extend the 16 message words of a block to 64 schedule words. -/
def shaSchedule (w : List Nat) : Nat → List Nat
  | 0 => w
  | n + 1 =>
    let t := w.length
    let nw := (w.getD (t - 16) 0 + smallSigma0 (w.getD (t - 15) 0) +
      w.getD (t - 7) 0 + smallSigma1 (w.getD (t - 2) 0)) % w32
    shaSchedule (w ++ [nw]) n

/-- Compress one 64-word schedule into the running 8-word hash. -/
def shaCompress (h8 ws : List Nat) : List Nat :=
  let fin := (shaK.zip ws).foldl (fun st kw => shaRound st kw.1 kw.2) h8
  (h8.zip fin).map (fun p => (p.1 + p.2) % w32)

/-- Big-endian 8-byte encoding of the message bit length. -/
def be64 (n : Nat) : List Nat :=
  [n / 2 ^ 56 % 256, n / 2 ^ 48 % 256, n / 2 ^ 40 % 256, n / 2 ^ 32 % 256,
    n / 2 ^ 24 % 256, n / 2 ^ 16 % 256, n / 2 ^ 8 % 256, n % 256]

/-- SHA-256 padding: append `0x80`, zero bytes to 56 mod 64, and the 64-bit
big-endian bit length. -/
def shaPad (bytes : List Nat) : List Nat :=
  bytes ++ [128] ++ List.replicate ((119 - bytes.length % 64) % 64) 0 ++
    be64 (bytes.length * 8)

/-- Split the padded byte list into 64-byte blocks. -/
def chunks64 : List Nat → List (List Nat)
  | [] => []
  | b :: bs => (b :: bs).take 64 :: chunks64 ((b :: bs).drop 64)
termination_by bs => bs.length
decreasing_by all_goals (simp [List.length_drop]; omega)

/-- Fold each group of 4 bytes into a big-endian 32-bit word. -/
def bytesToWords : List Nat → List Nat
  | b0 :: b1 :: b2 :: b3 :: rest => (((b0 * 256 + b1) * 256 + b2) * 256 + b3) :: bytesToWords rest
  | _ => []

/-- The SHA-256 digest of a byte list, as 8 words. -/
def sha256Words (bytes : List Nat) : List Nat :=
  (chunks64 (shaPad bytes)).foldl (fun h blk => shaCompress h (shaSchedule (bytesToWords blk) 48)) shaH0

/-- Lower-case hexadecimal rendering of a 32-bit word. -/
def hex8 (x : Nat) : String :=
  String.mk ((List.range 8).map (fun i => "0123456789abcdef".toList.getD (x / 16 ^ (7 - i) % 16) (Char.ofNat 48)))

/-- UTF-8 encoding of one Unicode scalar value, as Python's
`str.encode("UTF-8")` produces. -/
def utf8Char (c : Char) : List Nat :=
  let n := c.toNat
  if n < 128 then [n]
  else if n < 2048 then [192 + n / 64, 128 + n % 64]
  else if n < 65536 then [224 + n / 4096, 128 + n / 64 % 64, 128 + n % 64]
  else [240 + n / 262144, 128 + n / 4096 % 64, 128 + n / 64 % 64, 128 + n % 64]

/-- UTF-8 byte encoding of a string. -/
def utf8Bytes (s : String) : List Nat :=
  (s.toList.map utf8Char).flatten

/-- `hashlib.sha256(text.encode("UTF-8")).hexdigest()` (cli.py line 267):
the lower-case hex SHA-256 digest of the UTF-8 encoding of a string. -/
def sha256Hex (s : String) : String :=
  String.join ((sha256Words (utf8Bytes s)).map hex8)

/-- The archive pockets checked, in order (`ARCHIVE_POCKETS`, cli.py
line 16). -/
inductive Pocket
  | release
  | security
  | updates
  | proposed
deriving DecidableEq, Repr

/-- Display name of a pocket, as interpolated into messages. -/
def pocketName : Pocket → String
  | Pocket.release => "Release"
  | Pocket.security => "Security"
  | Pocket.updates => "Updates"
  | Pocket.proposed => "Proposed"

/-- The fixed pocket search order of cli.py line 16. -/
def archivePockets : List Pocket :=
  [Pocket.release, Pocket.security, Pocket.updates, Pocket.proposed]

/-- A publication status, iterated in the fixed order
`["Published", "Superseded"]` (cli.py line 97). -/
inductive PubStatus
  | published
  | superseded
deriving DecidableEq, Repr

/-- Display name of a publication status, as interpolated into messages. -/
def statusName : PubStatus → String
  | PubStatus.published => "Published"
  | PubStatus.superseded => "Superseded"

/-- The fixed status search order of cli.py line 97. -/
def pubStatuses : List PubStatus :=
  [PubStatus.published, PubStatus.superseded]

/-- A published binary record: only its `source_package_name` back-reference
is consumed (cli.py line 117). -/
structure BinaryRec where
  source_package_name : String
deriving DecidableEq, Repr

/-- One build of a source publication (the fields of the Launchpad build
object that cli.py reads). -/
structure BuildRec where
  arch_tag : String
  source_package_name : String
  source_package_version : String
  build_log_url : String
  changesfile_url : String
deriving DecidableEq, Repr

/-- One source publication: its changelog URL and its builds
(`changelogUrl()` and `getBuilds()`). -/
structure SourceRec where
  changelog_url : String
  builds : List BuildRec
deriving DecidableEq, Repr

/-- The Launchpad archive collaborator: `getPublishedSources` keyed by
(source name, version, pocket, status) and `getPublishedBinaries` keyed by
(binary name, version, architecture, pocket, status), both with
`exact_match` — the series and the remaining query parameters are fixed per
invocation (cli.py lines 20-43). -/
structure Archive where
  getPublishedSources : String → String → Pocket → PubStatus → List SourceRec
  getPublishedBinaries : String → String → String → Pocket → PubStatus → List BinaryRec

/-- One remote query event, recorded so theorems can speak about which
(pocket, status) combinations the resolver consults, and with which names. -/
inductive QEvent
  | srcQuery (name ver : String) (p : Pocket) (st : PubStatus)
  | binQuery (name ver arch : String) (p : Pocket) (st : PubStatus)
deriving DecidableEq, Repr

/-- Result of a resolver fragment: the current value of the Python `sources`
variable, the `source_package_found` flag, the queries issued and the
messages printed. -/
structure ScanOut where
  sources : List SourceRec
  found : Bool
  trace : List QEvent
  prints : List String
deriving DecidableEq, Repr

/-- Result of one status iteration; `brk` records whether the Python `break`
of cli.py line 144 (direct sources found) fired, ending the status loop. -/
structure StepOut where
  sources : List SourceRec
  found : Bool
  brk : Bool
  trace : List QEvent
  prints : List String
deriving DecidableEq, Repr

/-- Message of cli.py lines 102-104. -/
def noSourcesMsg (st : PubStatus) (name ver series : String) (p : Pocket) : String :=
  "INFO: No " ++ statusName st ++ " sources found for " ++ name ++ " version " ++ ver ++
    " in " ++ series ++ " " ++ pocketName p

/-- Message of cli.py line 105. -/
def tryingBinaryMsg : String :=
  "INFO: \tTrying to find a binary package with that name ..."

/-- Message of cli.py lines 127-130. -/
def foundViaBinaryMsg (srcName name ver : String) (st : PubStatus) : String :=
  "INFO: \tFound source package " ++ srcName ++ " for binary package " ++ name ++
    " version " ++ ver ++ " with " ++ statusName st ++ " sources."

/-- Message of cli.py lines 134-136. -/
def noBinariesMsg (st : PubStatus) (name ver series : String) (p : Pocket) : String :=
  "INFO: \tNo " ++ statusName st ++ " binaries found for " ++ name ++ " version " ++ ver ++
    " in " ++ series ++ " " ++ pocketName p ++ "\n\n"

/-- Message of cli.py lines 138-141. -/
def foundDirectMsg (name ver : String) (p : Pocket) (st : PubStatus) : String :=
  "INFO: \tFound source package " ++ name ++ " version " ++ ver ++ " in " ++ pocketName p ++
    " pocket with " ++ statusName st ++ " sources."

/-- Message of cli.py line 291. -/
def noBuildsMsg (name ver : String) : String :=
  "Unable to find builds for package " ++ name ++ " version " ++ ver

/-- Message of cli.py line 293. -/
def unableFindMsg (name ver : String) : String :=
  "Unable to find published package " ++ name ++ " version " ++ ver

/-- The binary-fallback loop of cli.py lines 116-132, transliterated: for
each returned binary in order, re-query sources under its source package
name with the same version, pocket and status; at the first binary whose
query returns a non-empty list, set the found flag and break.  The Python
`sources` variable is overwritten by every re-query, so on failure it holds
the last (empty) result. -/
def binScan (a : Archive) (name ver : String) (p : Pocket) (st : PubStatus) : List BinaryRec → ScanOut
  | [] => ⟨[], false, [], []⟩
  | b :: bs =>
    let s := a.getPublishedSources b.source_package_name ver p st
    if s.length > 0 then
      ⟨s, true, [QEvent.srcQuery b.source_package_name ver p st],
        [foundViaBinaryMsg b.source_package_name name ver st]⟩
    else
      let r := binScan a name ver p st bs
      ⟨r.sources, r.found, QEvent.srcQuery b.source_package_name ver p st :: r.trace, r.prints⟩

/-- One iteration of the status loop (cli.py lines 97-144): query sources
directly; on zero results print the two notices and fall back to the binary
lookup (`binScan`) when binaries exist; on direct success print the found
message, set the flag and break the status loop.  Only the direct-success
branch breaks: a binary-fallback success does not (`brk := false`). -/
def statusStep (a : Archive) (name ver series arch : String) (p : Pocket) (st : PubStatus) : StepOut :=
  let s := a.getPublishedSources name ver p st
  if s.length == 0 then
    let bins := a.getPublishedBinaries name ver arch p st
    let ev := [QEvent.srcQuery name ver p st, QEvent.binQuery name ver arch p st]
    let ms := [noSourcesMsg st name ver series p, tryingBinaryMsg]
    if bins.length > 0 then
      let r := binScan a name ver p st bins
      ⟨r.sources, r.found, false, ev ++ r.trace, ms ++ r.prints⟩
    else
      ⟨[], false, false, ev, ms ++ [noBinariesMsg st name ver series p]⟩
  else
    ⟨s, true, true, [QEvent.srcQuery name ver p st], [foundDirectMsg name ver p st]⟩

/-- The status loop of cli.py lines 97-144 over the remaining statuses,
carrying the Python `sources` variable and `source_package_found` flag. -/
def statusLoop (a : Archive) (name ver series arch : String) (p : Pocket) :
    List PubStatus → List SourceRec → Bool → ScanOut
  | [], sv, found => ⟨sv, found, [], []⟩
  | st :: sts, _, found =>
    let r := statusStep a name ver series arch p st
    let found2 := found || r.found
    if r.brk then ⟨r.sources, found2, r.trace, r.prints⟩
    else
      let rest := statusLoop a name ver series arch p sts r.sources found2
      ⟨rest.sources, rest.found, r.trace ++ rest.trace, r.prints ++ rest.prints⟩

/-- The pocket loop of cli.py lines 82-147: run the status loop for each
pocket in order, stopping after the first pocket whose iteration ends with
`source_package_found` set. -/
def pocketLoop (a : Archive) (name ver series arch : String) :
    List Pocket → List SourceRec → Bool → ScanOut
  | [], sv, found => ⟨sv, found, [], []⟩
  | p :: ps, sv, found =>
    let r := statusLoop a name ver series arch p pubStatuses sv found
    if r.found then ⟨r.sources, r.found, r.trace, r.prints⟩
    else
      let rest := pocketLoop a name ver series arch ps r.sources r.found
      ⟨rest.sources, rest.found, r.trace ++ rest.trace, r.prints ++ rest.prints⟩

/-- The whole publication resolver (cli.py lines 81-147). -/
def resolveSources (a : Archive) (name ver series arch : String) : ScanOut :=
  pocketLoop a name ver series arch archivePockets [] false

/-- Observable effects of one invocation: printed lines, written files as
(name, content) pairs in write order, fetched URLs in fetch order, and
whether the run aborted with an uncaught Python exception. -/
structure RunOutput where
  printed : List String
  written : List (String × String)
  fetched : List String
  crashed : Bool
deriving DecidableEq, Repr

/-- The per-build body of cli.py lines 156-285 for the matched build: fetch
and write the changelog, fetch the build log, extract the placeholder path
(a regex failure crashes the run, after the changelog was already written),
write the build log, extract and substitute the manifest, write it, fetch
the changes file, run the checksum verification and print its outcome, and
write the changes file.  `fetch` models
`launchpad._browser.get(launchpad._root_uri.append(...)).decode("utf-8")`. -/
def processBuild (fetch : String → String) (src : SourceRec) (b : BuildRec) : RunOutput :=
  let base := b.source_package_name ++ "_" ++ b.source_package_version ++ "_" ++ b.arch_tag
  let changelog := fetch src.changelog_url
  let p1 := "INFO: \tchangelog file writen to " ++ base ++ ".changelog"
  let f1 := (base ++ ".changelog", changelog)
  let buildlog := fetch b.build_log_url
  match pkgBuilddirLoop (splitLines buildlog) with
  | Except.error _ => ⟨[p1], [f1], [src.changelog_url, b.build_log_url], true⟩
  | Except.ok pkgdir =>
    let p2 := "INFO: \tbuildlog writen to " ++ base ++ ".buildlog"
    let f2 := (base ++ ".buildlog", buildlog)
    let manifest := substituteBuilddir pkgdir (buildinfoLoop false (splitLines buildlog))
    let bname := base ++ ".buildinfo"
    let p3 := "INFO: \tbuildinfo file writen to " ++ base ++ ".buildinfo"
    let f3 := (bname, manifest)
    let changes := fetch b.changesfile_url
    let urls := [src.changelog_url, b.build_log_url, b.changesfile_url]
    let v := (verifyScan bname (sha256Hex manifest) false (splitLines changes)).1
    if v == VerifyOutcome.splitCrash then ⟨[p1, p2, p3], [f1, f2, f3], urls, true⟩
    else
      let p4 := "INFO: \tchanges file writen to " ++ base ++ ".changes"
      ⟨[p1, p2, p3] ++ (verifyMessage v bname).toList ++ [p4],
        [f1, f2, f3, (base ++ ".changes", changes)], urls, false⟩

/-- The build selection of cli.py lines 151-158: only when more than one
build exists is the list scanned, and the first build whose `arch_tag`
equals the requested architecture (exact, case-sensitive string equality)
is selected; with one or zero builds nothing is selected. -/
def selectBuild (builds : List BuildRec) (arch : String) : Option BuildRec :=
  if builds.length > 1 then builds.find? (fun b => b.arch_tag == arch) else none

/-- The build stage of cli.py lines 150-291 given the resolved publication:
with more than one build, process the first architecture match (silently do
nothing when none matches); otherwise print the no-builds message. -/
def buildStage (fetch : String → String) (src : SourceRec) (name ver arch : String) : RunOutput :=
  if src.builds.length > 1 then
    match src.builds.find? (fun b => b.arch_tag == arch) with
    | some b => processBuild fetch src b
    | none => ⟨[], [], [], false⟩
  else ⟨[noBuildsMsg name ver], [], [], false⟩

/-- The whole `get_buildlog_info` pipeline (cli.py lines 46-293): resolve
the publication, then — exactly when the final `sources` list has exactly
one element — run the build stage, else print the unable-to-find message.
Printed lines are the resolver's followed by the build stage's. -/
def getBuildlogInfo (a : Archive) (fetch : String → String) (name ver series arch : String) : RunOutput :=
  match (resolveSources a name ver series arch).sources with
  | [src] =>
    let o := buildStage fetch src name ver arch
    ⟨(resolveSources a name ver series arch).prints ++ o.printed, o.written, o.fetched, o.crashed⟩
  | _ => ⟨(resolveSources a name ver series arch).prints ++ [unableFindMsg name ver], [], [], false⟩

/-- Claim C4's description of the binary-fallback loop, following the spec's
words: the binaries are scanned in returned order; the failing prefix is the
binaries whose derived source query (same version, pocket, status) returns
zero sources; resolution stops at the first binary after that prefix, whose
query result becomes the resolved list; re-queries are issued exactly for
the scanned binaries. -/
def specBinScan (a : Archive) (name ver : String) (p : Pocket) (st : PubStatus)
    (bs : List BinaryRec) : ScanOut :=
  let qres := fun (x : BinaryRec) => a.getPublishedSources x.source_package_name ver p st
  let ev := fun (x : BinaryRec) => QEvent.srcQuery x.source_package_name ver p st
  let fails := bs.takeWhile (fun x => (qres x).length == 0)
  match bs.find? (fun x => !((qres x).length == 0)) with
  | none => ⟨[], false, bs.map ev, []⟩
  | some c =>
    ⟨qres c, true, fails.map ev ++ [ev c],
      [foundViaBinaryMsg c.source_package_name name ver st]⟩

/-- Claim C4's description of one (pocket, status) step, following the
spec's words: the direct source query is issued first; the binary fallback
is attempted only when it returns zero sources, and then behaves as
`specBinScan`. -/
def specStatusStep (a : Archive) (name ver series arch : String) (p : Pocket) (st : PubStatus) : StepOut :=
  let s := a.getPublishedSources name ver p st
  if s.length == 0 then
    let bins := a.getPublishedBinaries name ver arch p st
    let ev := [QEvent.srcQuery name ver p st, QEvent.binQuery name ver arch p st]
    let ms := [noSourcesMsg st name ver series p, tryingBinaryMsg]
    if bins.length > 0 then
      let r := specBinScan a name ver p st bins
      ⟨r.sources, r.found, false, ev ++ r.trace, ms ++ r.prints⟩
    else
      ⟨[], false, false, ev, ms ++ [noBinariesMsg st name ver series p]⟩
  else
    ⟨s, true, true, [QEvent.srcQuery name ver p st], [foundDirectMsg name ver p st]⟩

/-- C1 (corrected). For every build-log text the scan accumulates exactly the
lines of the region delimited by the first line CONTAINING the start banner
(not: exactly equal to it) and the first line CONTAINING the end banner —
a line containing the end banner stops the scan even if it precedes every
start banner — each appended verbatim followed by a newline, excluding lines
exactly equal to either banner, the separator row, or the empty string; the
banner rows and the separator are 80-character lines (not 78); if no line
contains the start banner before the scan stops, the manifest is empty. -/
theorem c1_amended_theorem (buildlog : String) :
    extractBuildinfo buildlog = manifestOfLines (manifestRegion (splitLines buildlog)) ∧
    buildinfoStart.length = 80 ∧ buildinfoEnd.length = 80 ∧ headerSeparator.length = 80 :=
  ⟨buildinfoLoop_false (splitLines buildlog), by decide, by decide, by decide⟩

/-- Build log refuting C1's exact-equality reading: its first line is the
start banner with one extra character appended. -/
def c1Log : String :=
  buildinfoStart ++ "!\nhello\n" ++ buildinfoEnd ++ "\nzzz"

/-- C1 counterexample: on `c1Log` the code's manifest is non-empty — the
scan is triggered by substring containment and even appends the
banner-plus-suffix line itself — while the claim's exact-equality reading
(`claimManifestExact`) yields the empty manifest, since no line is exactly
equal to the start banner.  Moreover the banner is 80 characters long, not
78 as the claim states. -/
theorem c1_counterexample :
    extractBuildinfo c1Log ≠ claimManifestExact (splitLines c1Log) ∧
    extractBuildinfo c1Log = buildinfoStart ++ "!\nhello\n" ∧
    claimManifestExact (splitLines c1Log) = "" ∧
    ¬ buildinfoStart.length = 78 := by
  refine ⟨by decide, by decide, by decide, by decide⟩

theorem verifyScan_true (fname digest : String) (ls : List String) :
    verifyScan fname digest true ls =
      match ls.dropWhile (fun l => !containsStr fname l) with
      | [] => (VerifyOutcome.notPresent, [])
      | l :: rest => (tokenOutcome digest l, rest) := by
  induction ls with
  | nil => rfl
  | cons l ls ih =>
    by_cases hF : containsStr fname l
    · simp [verifyScan, hF]
    · simp [verifyScan, hF, ih]

theorem verifyScan_false (fname digest : String) (ls : List String) :
    verifyScan fname digest false ls =
      match findChecksumLine fname ls with
      | none => (VerifyOutcome.notPresent, [])
      | some lr => (tokenOutcome digest lr.1, lr.2) := by
  induction ls with
  | nil => rfl
  | cons l ls ih =>
    by_cases hC : containsStr checksumsMarker l
    · by_cases hF : containsStr fname l
      · simp [verifyScan, hC, hF, findChecksumLine, checksumWindow]
      · simp [verifyScan, hC, hF, findChecksumLine, checksumWindow, verifyScan_true]
        cases hD : List.dropWhile (fun l => !containsStr fname l) ls <;> simp [hD]
    · simp [verifyScan, hC, findChecksumLine, checksumWindow, ih]

/-- C7 (confirmed). For every changes-file text, filename and manifest: the
checksum scan finds the first line at or after the first line containing
`Checksums-Sha256:` that contains the manifest filename as a substring
(`findChecksumLine`); its outcome at that line is determined by the line's
first whitespace token, and the lines after that line are returned unscanned
(the scan stops immediately regardless of outcome); when no such line
exists the outcome is `notPresent`.  At a found line whose first token is
`t`, the outcome is `hashMatch` exactly when `t` equals the SHA-256 hex
digest of the UTF-8-encoded manifest, by case-sensitive string equality. -/
theorem c7_theorem (fname manifest changes : String) :
    (verifyScan fname (sha256Hex manifest) false (splitLines changes) =
      match findChecksumLine fname (splitLines changes) with
      | none => (VerifyOutcome.notPresent, [])
      | some lr => (tokenOutcome (sha256Hex manifest) lr.1, lr.2)) ∧
    (∀ (l t : String) (ts : List String), pySplit l = t :: ts →
      (tokenOutcome (sha256Hex manifest) l = VerifyOutcome.hashMatch ↔ t = sha256Hex manifest)) := by
  constructor
  · exact verifyScan_false fname (sha256Hex manifest) (splitLines changes)
  · intro l t ts h
    by_cases ht : t = sha256Hex manifest
    · simp [tokenOutcome, h, ht]
    · simp [tokenOutcome, h, ht]

/-- Closed instance of `c7_theorem`: on a concrete changes text whose
checksum section records the digest of the one-character manifest `"X"`, the
scan returns `hashMatch` and leaves the trailing line unscanned. -/
def c7Changes : String :=
  "Format: 1.8\nChecksums-Sha256:\n " ++ sha256Hex "X" ++ " 42 foo_1.0_amd64.buildinfo\ntrailing"

theorem c7_witness :
    (verifyScan "foo_1.0_amd64.buildinfo" (sha256Hex "X") false (splitLines c7Changes) =
      match findChecksumLine "foo_1.0_amd64.buildinfo" (splitLines c7Changes) with
      | none => (VerifyOutcome.notPresent, [])
      | some lr => (tokenOutcome (sha256Hex "X") lr.1, lr.2)) ∧
    (∀ (l t : String) (ts : List String), pySplit l = t :: ts →
      (tokenOutcome (sha256Hex "X") l = VerifyOutcome.hashMatch ↔ t = sha256Hex "X")) :=
  c7_theorem "foo_1.0_amd64.buildinfo" "X" c7Changes

/-- C8 (confirmed). Whenever the checksum section or the manifest-filename
line is never found, the scan outcome is `notPresent`, whose produced output
(no printed line) differs from the mismatch outcome's printed line. -/
theorem c8_theorem (fname digest changes : String)
    (h : findChecksumLine fname (splitLines changes) = none) :
    verifyScan fname digest false (splitLines changes) = (VerifyOutcome.notPresent, []) ∧
    verifyMessage VerifyOutcome.notPresent fname ≠ verifyMessage VerifyOutcome.hashMismatch fname := by
  refine ⟨?_, by simp [verifyMessage]⟩
  rw [verifyScan_false, h]

theorem c8_witness :
    verifyScan "foo_1.0_amd64.buildinfo" "d41d" false (splitLines "Format: 1.8\nFiles:\n abc 1 foo_1.0_amd64.buildinfo") = (VerifyOutcome.notPresent, []) ∧
    verifyMessage VerifyOutcome.notPresent "foo_1.0_amd64.buildinfo" ≠ verifyMessage VerifyOutcome.hashMismatch "foo_1.0_amd64.buildinfo" :=
  c8_theorem "foo_1.0_amd64.buildinfo" "d41d" "Format: 1.8\nFiles:\n abc 1 foo_1.0_amd64.buildinfo" (by decide)

theorem strAt_lt_length (p s : List Char) (i : Nat) (hp : p ≠ []) (h : strAt p s i = true) :
    i < s.length := by
  by_contra hge
  have hdrop : s.drop i = [] := List.drop_eq_nil_of_le (by omega)
  rw [strAt, hdrop] at h
  cases p with
  | nil => exact hp rfl
  | cons a as => simp [List.isPrefixOf] at h

theorem firstIdxAux_eq_some (p s : List Char) :
    ∀ fuel start i, start ≤ i → i < start + fuel → strAt p s i = true →
      (∀ j, start ≤ j → j < i → strAt p s j = false) →
      firstIdxAux p s start fuel = some i := by
  intro fuel
  induction fuel with
  | zero => intro start i h1 h2 _ _; omega
  | succ fuel ih =>
    intro start i h1 h2 h3 h4
    by_cases hs : strAt p s start = true
    · have he : start = i := by
        by_contra hne
        have hx := h4 start (Nat.le_refl _) (by omega)
        rw [hx] at hs
        cases hs
      cases he
      simp [firstIdxAux, hs]
    · have hne : start ≠ i := fun e => hs (e ▸ h3)
      simp [firstIdxAux, hs]
      exact ih (start + 1) i (by omega) (by omega) h3 (fun j hj1 hj2 => h4 j (by omega) hj2)

theorem firstIdxOf_eq_some (p s : List Char) (i : Nat) (hp : p ≠ [])
    (h1 : strAt p s i = true) (h2 : ∀ j, j < i → strAt p s j = false) :
    firstIdxOf p s = some i :=
  firstIdxAux_eq_some p s (s.length + 1) 0 i (Nat.zero_le _)
    (by have := strAt_lt_length p s i hp h1; omega) h1 (fun j _ hj => h2 j hj)

theorem firstIdxAux_eq_none (p s : List Char) :
    ∀ fuel start, firstIdxAux p s start fuel = none →
      ∀ j, start ≤ j → j < start + fuel → strAt p s j = false := by
  intro fuel
  induction fuel with
  | zero => intro start _ j h1 h2; omega
  | succ fuel ih =>
    intro start h j h1 h2
    by_cases hs : strAt p s start = true
    · simp [firstIdxAux, hs] at h
    · simp [firstIdxAux, hs] at h
      by_cases hj : j = start
      · subst hj; simpa using hs
      · exact ih (start + 1) h j (by omega) (by omega)

theorem lastIdxFrom_eq_some (q s : List Char) (lo k : Nat) :
    ∀ n, k ≤ n → lo ≤ k → strAt q s k = true →
      (∀ m, lo ≤ m → m ≤ n → strAt q s m = true → m ≤ k) →
      lastIdxFrom q s lo n = some k := by
  intro n
  induction n with
  | zero =>
    intro h1 h2 h3 _
    have hk : k = 0 := by omega
    subst hk
    have hl : lo = 0 := by omega
    subst hl
    simp [lastIdxFrom, h3]
  | succ n ih =>
    intro h1 h2 h3 h4
    by_cases hl : lo ≤ n + 1
    · by_cases hx : strAt q s (n + 1) = true
      · have hk : k = n + 1 := by
          have := h4 (n + 1) hl (Nat.le_refl _) hx
          omega
        subst hk
        simp [lastIdxFrom, hl, hx]
      · have hstr : strAt q s (n + 1) = false := by
          cases hy : strAt q s (n + 1)
          · rfl
          · exact absurd hy hx
        have hk : k ≤ n := by
          rcases Nat.lt_or_ge k (n + 1) with hlt | hge
          · omega
          · exfalso
            have : k = n + 1 := by omega
            subst this
            exact hx h3
        simp [lastIdxFrom, hl, hstr]
        exact ih hk h2 h3 (fun m hm1 hm2 hm3 => h4 m hm1 (by omega) hm3)
    · have hk : k ≤ n := by omega
      simp [lastIdxFrom, hl]
      exact ih hk h2 h3 (fun m hm1 hm2 hm3 => h4 m hm1 (by omega) hm3)

theorem pkgBuilddirLoop_eq (ls : List String) :
    pkgBuilddirLoop ls =
      match ls.find? markerLine with
      | none => Except.ok ""
      | some l =>
        match reSearchBuild l.toList with
        | none => Except.error ()
        | some m => Except.ok (pkgPathClean m) := by
  induction ls with
  | nil => rfl
  | cons l ls ih =>
    by_cases hm : markerLine l
    · simp [pkgBuilddirLoop, List.find?, hm]
    · simp [pkgBuilddirLoop, List.find?, hm, ih]

theorem replaceAllList_no_occ (p r : List Char) :
    ∀ s : List Char, (∀ i, strAt p s i = false) → replaceAllList p r s = s := by
  intro s
  induction s with
  | nil => intro _; simp [replaceAllList]
  | cons c cs ih =>
    intro h
    have h0 := h 0
    rw [strAt, List.drop_zero] at h0
    simp [replaceAllList, h0]
    exact ih (fun i => by have := h (i + 1); rwa [strAt, List.drop_succ_cons] at this)

theorem replaceAllList_head (p r rest : List Char) (hp : p ≠ []) :
    replaceAllList p r (p ++ rest) = r ++ replaceAllList p r rest := by
  cases p with
  | nil => exact absurd rfl hp
  | cons a as =>
    have hpre : (a :: as).isPrefixOf (a :: (as ++ rest)) = true := by
      rw [List.isPrefixOf_iff_prefix]
      exact (List.cons_append a as rest) ▸ List.prefix_append (a :: as) rest
    rw [List.cons_append]
    simp only [replaceAllList, hpre]
    simp [List.drop_left]

theorem string_mk_toList (s : String) : String.mk s.toList = s :=
  rfl

theorem string_append_mk (a : String) (l : List Char) : a ++ String.mk l = String.mk (a.toList ++ l) :=
  rfl

/-- C2 (corrected).  The placeholder path is taken from the first line
containing both literal markers; from it the regex match runs from the
first occurrence of `'build/` to the LAST single-quote-plus-space boundary
on the line at least 7 characters later (the `.*` is greedy, not "up to the
next boundary" as the claim says), and ALL single quotes in the span are
removed (not only the surrounding ones) before stripping whitespace; every
occurrence of `<<PKGBUILDDIR>>` in the manifest is replaced by the
extracted path, and with no marker line the path is the empty string.
Conjuncts: (1) no marker line gives path `""`; (2) the greedy
characterization of the extracted path, for the first marker line `l`, the
least `i` starting `'build/` and the greatest boundary `k`; (3) replacement
leaves a manifest without occurrences of the token unchanged; (4) an
occurrence of the token at the head of the manifest is replaced by the path
and replacement continues after it. -/
theorem c2_amended_theorem :
    (∀ loglines : List String, loglines.find? markerLine = none →
      pkgBuilddirLoop loglines = Except.ok "") ∧
    (∀ (loglines : List String) (l : String) (i k : Nat),
      loglines.find? markerLine = some l →
      strAt sqBuildPat l.toList i = true →
      (∀ j, j < i → strAt sqBuildPat l.toList j = false) →
      i + 7 ≤ k →
      strAt quoteSpacePat l.toList k = true →
      (∀ m, m < l.toList.length → i + 7 ≤ m → strAt quoteSpacePat l.toList m = true → m ≤ k) →
      pkgBuilddirLoop loglines = Except.ok (pkgPathClean ((l.toList.drop i).take (k + 2 - i)))) ∧
    (∀ path manifest : String, containsStr pkgToken manifest = false →
      substituteBuilddir path manifest = manifest) ∧
    (∀ path rest : String,
      substituteBuilddir path (pkgToken ++ rest) = path ++ substituteBuilddir path rest) := by
  refine ⟨?_, ?_, ?_, ?_⟩
  · intro loglines h
    rw [pkgBuilddirLoop_eq, h]
  · intro loglines l i k hfind hi1 hi2 hk1 hk2 hk3
    have hqne : quoteSpacePat ≠ [] := by decide
    have hfi : firstIdxOf sqBuildPat l.toList = some i :=
      firstIdxOf_eq_some _ _ i (by decide) hi1 hi2
    have hkmax : ∀ m, i + 7 ≤ m → m ≤ l.toList.length → strAt quoteSpacePat l.toList m = true → m ≤ k := by
      intro m h1 h2 h3
      rcases Nat.lt_or_ge m l.toList.length with hlt | hge
      · exact hk3 m hlt h1 h3
      · exfalso
        have := strAt_lt_length _ _ m hqne h3
        omega
    have hla : lastIdxFrom quoteSpacePat l.toList (i + 7) l.toList.length = some k :=
      lastIdxFrom_eq_some _ _ _ k l.toList.length
        (by have := strAt_lt_length _ _ k hqne hk2; omega) hk1 hk2 hkmax
    rw [pkgBuilddirLoop_eq, hfind]
    simp only [reSearchBuild, hfi, hla]
  · intro path manifest h
    have hnone : firstIdxOf pkgToken.toList manifest.toList = none := by
      cases ho : firstIdxOf pkgToken.toList manifest.toList with
      | none => rfl
      | some v => rw [containsStr, containsSub, ho] at h; simp at h
    have hocc : ∀ i, strAt pkgToken.toList manifest.toList i = false := by
      intro i
      rcases Nat.lt_or_ge i (manifest.toList.length + 1) with hlt | hge
      · exact firstIdxAux_eq_none _ _ _ _ hnone i (Nat.zero_le _) (by omega)
      · cases hx : strAt pkgToken.toList manifest.toList i
        · rfl
        · exfalso
          have := strAt_lt_length _ _ i (by decide) hx
          omega
    rw [substituteBuilddir, replaceAllStr, replaceAllList_no_occ _ _ _ hocc, string_mk_toList]
  · intro path rest
    rw [substituteBuilddir, replaceAllStr]
    have hsplit : (pkgToken ++ rest).toList = pkgToken.toList ++ rest.toList := rfl
    rw [hsplit, replaceAllList_head _ _ _ (by decide), substituteBuilddir, replaceAllStr,
      string_append_mk]

/-- The placeholder notice line used to witness `c2_amended_theorem`. -/
def c2WitnessLine : String :=
  "I: NOTICE: Log filtering will replace " ++ sqStr ++ "build/apparmor-B/apparmor-3" ++ sqStr ++
    " with " ++ sqStr ++ "<<PKGBUILDDIR>>" ++ sqStr

theorem c2_witness :
    pkgBuilddirLoop [c2WitnessLine] =
      Except.ok (pkgPathClean ((c2WitnessLine.toList.drop 38).take (66 + 2 - 38))) :=
  c2_amended_theorem.2.1 [c2WitnessLine] c2WitnessLine 38 66 (by decide) (by decide)
    (by decide) (by decide) (by decide) (by decide)

/-- A marker line with two quote-space boundaries after the path start,
refuting C2's "next boundary" reading. -/
def c2Line : String :=
  "I: NOTICE: Log filtering will replace " ++ sqStr ++ "build/a" ++ sqStr ++ " moved " ++
    sqStr ++ "x" ++ sqStr ++ " with " ++ sqStr ++ "<<PKGBUILDDIR>>" ++ sqStr

/-- C2 counterexample: on `c2Line` the code's greedy regex extracts up to the
LAST quote-space boundary, yielding `"build/a moved x"` (with the interior
quotes also removed), while the claim's next-boundary reading
(`claimNextBoundaryPath`) yields `"build/a"`. -/
theorem c2_counterexample :
    pkgBuilddirLoop [c2Line] = Except.ok "build/a moved x" ∧
    claimNextBoundaryPath c2Line.toList = some "build/a" ∧
    ("build/a moved x" : String) ≠ "build/a" :=
  ⟨rfl, rfl, by decide⟩

/-- C10 (corrected).  The placeholder-path extraction completes without an
error if and only if either no line contains both marker substrings, or the
FIRST such line contains the `'build/...' ` pattern — equivalently, it
errors exactly when the first marker line lacks the pattern.  (The claim's
"every line containing both markers" is too strong: lines after the first
marker line are never examined.)  The error is Python dereferencing the
failed regex search (`None.group(0)`), not a degradation to an empty
placeholder, as the claim's second half correctly states. -/
theorem c10_amended_theorem (loglines : List String) :
    pkgBuilddirLoop loglines = Except.error () ↔
      ∃ l, loglines.find? markerLine = some l ∧ reSearchBuild l.toList = none := by
  rw [pkgBuilddirLoop_eq]
  cases hf : loglines.find? markerLine with
  | none => simp
  | some l =>
    cases hr : reSearchBuild l.toList with
    | none =>
      have hr2 : reSearchBuild l.data = none := hr
      simp [hr2]
    | some m =>
      have hr2 : reSearchBuild l.data = some m := hr
      simp [hr2]

/-- A marker line whose regex search succeeds. -/
def c10GoodLine : String :=
  "I: NOTICE: Log filtering will replace " ++ sqStr ++ "build/x-1/x" ++ sqStr ++
    " with " ++ sqStr ++ "<<PKGBUILDDIR>>" ++ sqStr

/-- A marker line whose regex search fails (no `'build/` occurrence). -/
def c10BadLine : String :=
  "I: NOTICE: Log filtering will replace xyz with " ++ sqStr ++ "<<PKGBUILDDIR>>" ++ sqStr

/-- C10 counterexample: with a pattern-bearing marker line first and a
patternless marker line second, extraction completes without an error even
though not every marker line contains the pattern — refuting the claim's
"only if every line containing both markers also contains [the pattern]". -/
theorem c10_counterexample :
    (¬ pkgBuilddirLoop [c10GoodLine, c10BadLine] = Except.error ()) ∧
    markerLine c10BadLine = true ∧
    reSearchBuild c10BadLine.toList = none ∧
    c10BadLine ∈ [c10GoodLine, c10BadLine] := by
  refine ⟨fun h => ?_, rfl, rfl, by decide⟩
  rw [show pkgBuilddirLoop [c10GoodLine, c10BadLine] = Except.ok "build/x-1/x" from rfl] at h
  exact Except.noConfusion h

theorem binScan_eq_spec (a : Archive) (name ver : String) (p : Pocket) (st : PubStatus) :
    ∀ bs : List BinaryRec, binScan a name ver p st bs = specBinScan a name ver p st bs := by
  intro bs
  induction bs with
  | nil => rfl
  | cons b bs ih =>
    by_cases hz : (a.getPublishedSources b.source_package_name ver p st).length = 0
    · have hgt : ¬ (a.getPublishedSources b.source_package_name ver p st).length > 0 := by omega
      have hbeq : ((a.getPublishedSources b.source_package_name ver p st).length == 0) = true := by
        simp [hz]
      simp only [binScan]
      rw [if_neg hgt, ih]
      simp only [specBinScan, List.takeWhile_cons, List.find?, hbeq, Bool.not_true]
      cases hh : bs.find?
          (fun x => !((a.getPublishedSources x.source_package_name ver p st).length == 0)) with
      | none => simp [hh]
      | some c => simp [hh]
    · have hgt : (a.getPublishedSources b.source_package_name ver p st).length > 0 := by omega
      have hbeq : ((a.getPublishedSources b.source_package_name ver p st).length == 0) = false := by
        simp [hz]
      simp only [binScan]
      rw [if_pos hgt]
      simp [specBinScan, List.takeWhile_cons, List.find?, hbeq]

/-- C4 (confirmed).  For every archive state and every (pocket, status)
combination, one step of the resolver equals its declarative description
`specStatusStep`: the binary fallback is attempted only when the direct
source query for the literal name returns zero sources; the returned
binaries are scanned in order, re-querying sources under each binary's
`source_package_name` with the same version, pocket and status; resolution
stops at the first binary whose derived query returns one or more sources
(`specBinScan`: the failing prefix is computed by `takeWhile`, and the
first binary after it wins). -/
theorem c4_theorem (a : Archive) (name ver series arch : String) (p : Pocket) (st : PubStatus) :
    statusStep a name ver series arch p st = specStatusStep a name ver series arch p st := by
  unfold statusStep specStatusStep
  simp only [binScan_eq_spec]

/-- The one source publication of the C3 scenario. -/
def c3Src : SourceRec :=
  ⟨"http://launchpad/changelog/foo", []⟩

/-- Archive state exhibiting the resolver bug: no direct sources anywhere for
the binary-style name `libfoo1`, one `libfoo1` binary in (Release, Published)
whose source package `foo` has exactly one source publication there, and
nothing Superseded. -/
def c3Archive : Archive :=
  ⟨fun n v p st =>
      if n == "foo" && v == "1.0" && p == Pocket.release && st == PubStatus.published then [c3Src]
      else [],
    fun n v _ p st =>
      if n == "libfoo1" && v == "1.0" && p == Pocket.release && st == PubStatus.published then [⟨"foo"⟩]
      else []⟩

/-- C3 (code bug).  After the binary fallback succeeds in
(Release, Published) — the trace records the successful re-query for `foo` —
the status loop does NOT stop: it also consults (Release, Superseded), both
the source and the binary query, because the `break` of cli.py line 132 only
leaves the inner binary loop and nothing breaks the status loop in that
branch.  The Superseded queries overwrite the Python `sources` variable with
an empty list, so the run ends printing "Unable to find published package"
and writes nothing, although a publication had been found — contradicting
the claim (and the spec's first-match-wins invariant, the comments on
cli.py lines 143-146 and the module docstring, which promise that the found
source package is used). -/
theorem c3_bug_theorem :
    (resolveSources c3Archive "libfoo1" "1.0" "jammy" "amd64").sources = [] ∧
    (resolveSources c3Archive "libfoo1" "1.0" "jammy" "amd64").found = true ∧
    (resolveSources c3Archive "libfoo1" "1.0" "jammy" "amd64").trace =
      [QEvent.srcQuery "libfoo1" "1.0" Pocket.release PubStatus.published,
        QEvent.binQuery "libfoo1" "1.0" "amd64" Pocket.release PubStatus.published,
        QEvent.srcQuery "foo" "1.0" Pocket.release PubStatus.published,
        QEvent.srcQuery "libfoo1" "1.0" Pocket.release PubStatus.superseded,
        QEvent.binQuery "libfoo1" "1.0" "amd64" Pocket.release PubStatus.superseded] ∧
    c3Archive.getPublishedSources "foo" "1.0" Pocket.release PubStatus.published = [c3Src] ∧
    (getBuildlogInfo c3Archive (fun _ => "") "libfoo1" "1.0" "jammy" "amd64").printed.getLast? =
      some (unableFindMsg "libfoo1" "1.0") ∧
    (getBuildlogInfo c3Archive (fun _ => "") "libfoo1" "1.0" "jammy" "amd64").written = [] :=
  ⟨rfl, rfl, rfl, rfl, rfl, rfl⟩

/-- C5 (confirmed).  Whenever the final resolved source list has a length
different from one, the pipeline prints exactly the resolver's messages
followed by the unable-to-find message, fetches no document and writes no
file (and does not crash): it never picks an element of an ambiguous
list. -/
theorem c5_theorem (a : Archive) (fetch : String → String) (name ver series arch : String)
    (h : (resolveSources a name ver series arch).sources.length ≠ 1) :
    getBuildlogInfo a fetch name ver series arch =
      ⟨(resolveSources a name ver series arch).prints ++ [unableFindMsg name ver], [], [], false⟩ := by
  unfold getBuildlogInfo
  cases hs : (resolveSources a name ver series arch).sources with
  | nil => rfl
  | cons x xs =>
    cases xs with
    | nil =>
      exfalso
      rw [hs] at h
      simp at h
    | cons y ys => rfl

/-- An archive with no publications at all, for the C5 witness. -/
def c5EmptyArchive : Archive :=
  ⟨fun _ _ _ _ => [], fun _ _ _ _ _ => []⟩

theorem c5_witness :
    getBuildlogInfo c5EmptyArchive (fun _ => "") "pkg" "1.0" "jammy" "amd64" =
      ⟨(resolveSources c5EmptyArchive "pkg" "1.0" "jammy" "amd64").prints ++
        [unableFindMsg "pkg" "1.0"], [], [], false⟩ :=
  c5_theorem c5EmptyArchive (fun _ => "") "pkg" "1.0" "jammy" "amd64" (by decide)

theorem find?_eq_some_first {α : Type} (p : α → Bool) :
    ∀ (l : List α) (b : α),
      l.find? p = some b ↔
        ∃ pre post, l = pre ++ b :: post ∧ p b = true ∧ ∀ x ∈ pre, p x = false := by
  intro l
  induction l with
  | nil =>
    intro b
    constructor
    · intro h
      cases h
    · rintro ⟨pre, post, h, -, -⟩
      cases pre <;> cases h
  | cons a l ih =>
    intro b
    by_cases ha : p a = true
    · simp only [List.find?, ha]
      constructor
      · intro h
        cases h
        exact ⟨[], l, rfl, ha, by intro x hx; cases hx⟩
      · rintro ⟨pre, post, heq, hb, hpre⟩
        cases pre with
        | nil =>
          cases heq
          rfl
        | cons c pre2 =>
          exfalso
          have hc := hpre c (by simp)
          have : a = c := by injection heq
          rw [← this] at hc
          rw [hc] at ha
          cases ha
    · have ha2 : p a = false := by
        cases hx : p a
        · rfl
        · exact absurd hx ha
      simp only [List.find?, ha2]
      rw [ih b]
      constructor
      · rintro ⟨pre, post, heq, hb, hpre⟩
        refine ⟨a :: pre, post, by rw [heq, List.cons_append], hb, ?_⟩
        intro x hx
        rcases List.mem_cons.mp hx with hx1 | hx2
        · rw [hx1]; exact ha2
        · exact hpre x hx2
      · rintro ⟨pre, post, heq, hb, hpre⟩
        cases pre with
        | nil =>
          exfalso
          injection heq with h1 h2
          rw [h1] at ha2
          rw [ha2] at hb
          cases hb
        | cons c pre2 =>
          injection heq with h1 h2
          exact ⟨pre2, post, h2, hb, fun x hx => hpre x (List.mem_cons_of_mem c hx)⟩

/-- C6 (confirmed).  Build selection yields nothing and the stage prints the
unable-to-find-builds message whenever the build list has one or zero
entries, even if a sole entry matches the requested architecture; with more
than one entry, the first build (in list order) whose `arch_tag` equals the
requested architecture under exact case-sensitive string equality is
selected; and for arch tags `["amd64", "arm64", "amd64"]` with requested
architecture `"amd64"`, the build at index 0 is selected. -/
theorem c6_theorem :
    (∀ (fetch : String → String) (src : SourceRec) (name ver arch : String),
      src.builds.length ≤ 1 →
      selectBuild src.builds arch = none ∧
      buildStage fetch src name ver arch = ⟨[noBuildsMsg name ver], [], [], false⟩) ∧
    (∀ (builds : List BuildRec) (arch : String) (b : BuildRec), builds.length > 1 →
      (selectBuild builds arch = some b ↔
        ∃ pre post, builds = pre ++ b :: post ∧ b.arch_tag = arch ∧
          ∀ x ∈ pre, x.arch_tag ≠ arch)) ∧
    selectBuild
      [⟨"amd64", "s", "1", "b0", "c0"⟩, ⟨"arm64", "s", "1", "b1", "c1"⟩,
        ⟨"amd64", "s", "1", "b2", "c2"⟩] "amd64" =
      some ⟨"amd64", "s", "1", "b0", "c0"⟩ := by
  refine ⟨?_, ?_, rfl⟩
  · intro fetch src name ver arch h
    have hn : ¬ src.builds.length > 1 := by omega
    exact ⟨by simp [selectBuild, hn], by simp [buildStage, hn]⟩
  · intro builds arch b h
    rw [show selectBuild builds arch = builds.find? (fun x => x.arch_tag == arch) from by
      simp [selectBuild, h]]
    rw [find?_eq_some_first]
    constructor
    · rintro ⟨pre, post, heq, hb, hpre⟩
      refine ⟨pre, post, heq, by simpa using hb, ?_⟩
      intro x hx
      have := hpre x hx
      simpa using this
    · rintro ⟨pre, post, heq, hb, hpre⟩
      refine ⟨pre, post, heq, by simpa using hb, ?_⟩
      intro x hx
      have := hpre x hx
      simpa using this

/-- A publication with a single build, for the C6 witness. -/
def c6OneBuild : SourceRec :=
  ⟨"http://cl6", [⟨"amd64", "s", "1", "b", "c"⟩]⟩

theorem c6_witness :
    selectBuild c6OneBuild.builds "amd64" = none ∧
    buildStage (fun _ => "") c6OneBuild "pkg" "2.0" "amd64" =
      ⟨[noBuildsMsg "pkg" "2.0"], [], [], false⟩ :=
  c6_theorem.1 (fun _ => "") c6OneBuild "pkg" "2.0" "amd64" (by decide)

/-- C9 (corrected).  A build-selection failure with fewer than two builds is
surfaced as the printed unable-to-find-builds message, but a failure where
more than one build exists and none matches the requested architecture is
surfaced by NO printed message at all — the loop of cli.py lines 155-289
simply never enters its body and nothing reports the failure; in both cases
the pipeline halts with none of the four output files written and nothing
fetched. -/
theorem c9_amended_theorem :
    (∀ (fetch : String → String) (src : SourceRec) (name ver arch : String),
      src.builds.length ≤ 1 →
      buildStage fetch src name ver arch = ⟨[noBuildsMsg name ver], [], [], false⟩) ∧
    (∀ (fetch : String → String) (src : SourceRec) (name ver arch : String),
      src.builds.length > 1 →
      src.builds.find? (fun b => b.arch_tag == arch) = none →
      buildStage fetch src name ver arch = ⟨[], [], [], false⟩) := by
  constructor
  · intro fetch src name ver arch h
    have hn : ¬ src.builds.length > 1 := by omega
    simp [buildStage, hn]
  · intro fetch src name ver arch h hf
    simp [buildStage, h, hf]

/-- A publication with two builds, neither of the requested architecture. -/
def c9Source : SourceRec :=
  ⟨"http://cl9", [⟨"arm64", "s", "1", "b1", "c1"⟩, ⟨"s390x", "s", "1", "b2", "c2"⟩]⟩

/-- C9 counterexample: a build-selection failure (two builds, no `amd64`
match) that produces NO printed message, refuting the claim that every
build-selection failure is surfaced as a printed message; no files are
written, as the claim correctly says. -/
theorem c9_counterexample :
    c9Source.builds.length > 1 ∧
    (∀ b ∈ c9Source.builds, b.arch_tag ≠ "amd64") ∧
    buildStage (fun _ => "") c9Source "pkg" "1.0" "amd64" = ⟨[], [], [], false⟩ := by
  refine ⟨by decide, by decide, rfl⟩

/-- A publication with a single build, for the C9 witness. -/
def c9OneBuild : SourceRec :=
  ⟨"http://cl9b", [⟨"arm64", "s", "1", "b", "c"⟩]⟩

theorem c9_witness :
    buildStage (fun _ => "") c9OneBuild "pp" "3" "amd64" =
      ⟨[noBuildsMsg "pp" "3"], [], [], false⟩ :=
  c9_amended_theorem.1 (fun _ => "") c9OneBuild "pp" "3" "amd64" (by decide)
